import Mathlib

/-!
Verification of the movie recommendation program (app-checkpoint.py).

The program has two logical components:

* `fetch_poster movie_id`: one HTTP GET against the TMDB API with a 10-second
  timeout, mapping every outcome to a URL string (a real poster URL on
  success with a truthy `poster_path`, otherwise one of five fixed
  placeholder URLs), emitting a diagnostic in every non-success branch.

* `recommend movie`: membership test of the title in the catalog, first
  matching row index, Python `sorted(list(enumerate(similarity[index])),
  reverse=True, key=lambda x: x[1])`, slice `[1:6]`, and for each selected
  row the title and the poster fetched by `fetch_poster`.

Modelling choices:

* Similarity scores are Python floats holding precomputed cosine
  similarities; they are embedded as rationals (`ℚ`), which carries the
  ordering behaviour the program relies on.
* Python `sorted` with `reverse=True` and key `x[1]` is a stable descending
  sort: entries are ordered by descending score and entries with equal
  scores keep their original relative order.  `List.insertionSort` with the
  relation `descBySim a b := b.2 ≤ a.2` is exactly such a stable descending
  sort, so the embedding uses it; stable sorts of a list under the same key
  order produce identical output, so this is observably the Python result.
* The network is abstracted as a `BackendOutcome` describing which of the
  mutually exclusive branches of the `try/except` chain the request takes:
  a successful response carrying `data.get("poster_path")`, or one of the
  four exception classes caught by the code.  The `requests` library turns
  an attempt exceeding the 10-unit bound into the `Timeout` exception; that
  classification is modelled by `outcomeOfRequest`.
* Calls to `st.warning` / `st.error` are modelled as emitted `Diag` values
  returned alongside the result.
-/

namespace MovieRec

/-- One row of the movies table: its `movie_id` and `title` columns. -/
structure CatalogEntry where
  movie_id : Nat
  title : String
  deriving DecidableEq, Repr

/-- The movies table, ordered; position = similarity-matrix row index. -/
abbrev Catalog := List CatalogEntry

/-- Which branch of the `try/except` chain in `fetch_poster` a request
takes.  `ok p` is a response that raised nothing, with
`p = data.get("poster_path")` (`none` models a null/absent field). -/
inductive BackendOutcome where
  | ok (poster_path : Option String)
  | timeout
  | connectionFailure (e : String)
  | requestFailure (e : String)
  | unexpectedFailure (e : String)
  deriving DecidableEq, Repr

/-- A diagnostic emitted through `st.warning` or `st.error`. -/
inductive Diag where
  | noPosterWarning (movie_id : Nat)
  | timeoutError (movie_id : Nat)
  | connectionError (movie_id : Nat) (e : String)
  | apiError (movie_id : Nat) (e : String)
  | unknownError (movie_id : Nat) (e : String)
  | notFoundError (movie : String)
  deriving DecidableEq, Repr

/-- CDN base joined with `poster_path` on success. -/
def posterBase : String := "https://image.tmdb.org/t/p/w500/"

/-- Placeholder returned when `poster_path` is missing or falsy. -/
def noPosterURL : String := "https://placehold.co/500x750/cccccc/000000?text=No+Poster"

/-- Placeholder returned on `requests.exceptions.Timeout`. -/
def timeoutURL : String := "https://placehold.co/500x750/ff0000/ffffff?text=Timeout+Error"

/-- Placeholder returned on `requests.exceptions.ConnectionError`. -/
def connectionErrorURL : String := "https://placehold.co/500x750/ff0000/ffffff?text=Connection+Error"

/-- Placeholder returned on any other `requests.exceptions.RequestException`. -/
def apiErrorURL : String := "https://placehold.co/500x750/ff0000/ffffff?text=API+Error"

/-- Placeholder returned on any other `Exception`. -/
def unknownErrorURL : String := "https://placehold.co/500x750/ff0000/ffffff?text=Unknown+Error"

/-- The five placeholder URLs of the non-real-poster branches, in source
order of the branches that return them. -/
def placeholderURLs : List String :=
  [noPosterURL, timeoutURL, connectionErrorURL, apiErrorURL, unknownErrorURL]

/-- Embedding of `fetch_poster` (lines 7-53 of the source): given the
branch the request takes, the returned URL string and the diagnostics
emitted on the way.  Python truthiness of `poster_path` makes both `None`
and the empty string take the placeholder branch. -/
def fetch_poster (movie_id : Nat) (outcome : BackendOutcome) : String × List Diag :=
  match outcome with
  | .ok poster_path =>
    match poster_path with
    | some p =>
      if p = "" then (noPosterURL, [.noPosterWarning movie_id])
      else (posterBase ++ p, [])
    | none => (noPosterURL, [.noPosterWarning movie_id])
  | .timeout => (timeoutURL, [.timeoutError movie_id])
  | .connectionFailure e => (connectionErrorURL, [.connectionError movie_id e])
  | .requestFailure e => (apiErrorURL, [.apiError movie_id e])
  | .unexpectedFailure e => (unknownErrorURL, [.unknownError movie_id e])

/-- Modelled from the library behaviour the source relies on: the
`requests.get(url, timeout=10)` call classifies an attempt whose elapsed
time exceeds the 10-unit bound as the `Timeout` exception before
`fetch_poster` sees any other result. -/
def outcomeOfRequest (elapsed : Nat) (result : BackendOutcome) : BackendOutcome :=
  if 10 < elapsed then .timeout else result

/-- The `title` column, in row order (`movies["title"].values`). -/
def titles (movies : Catalog) : List String :=
  movies.map CatalogEntry.title

/-- Line 68 of the source: `movies[movies["title"] == movie].index[0]`, the
first row index whose title equals the query. -/
def queryIndex (movies : Catalog) (movie : String) : Nat :=
  (titles movies).indexOf movie

/-- The similarity row `similarity[index]` of the query (line 73); an
out-of-range row index yields the empty row, which only occurs when the
row-count invariant of the data model is broken. -/
def queryRow (movies : Catalog) (similarity : List (List ℚ)) (movie : String) : List ℚ :=
  similarity.getD (queryIndex movies movie) []

/-- The sort relation of `sorted(..., reverse=True, key=lambda x: x[1])`:
`a` may come before `b` when the score of `a` is at least that of `b`. -/
def descBySim (a b : Nat × ℚ) : Prop := b.2 ≤ a.2

instance : DecidableRel descBySim := fun a b => inferInstanceAs (Decidable (b.2 ≤ a.2))

instance : IsTotal (Nat × ℚ) descBySim := ⟨fun a b => le_total b.2 a.2⟩

instance : IsTrans (Nat × ℚ) descBySim := ⟨fun _ _ _ hab hbc => le_trans hbc hab⟩

/-- Line 73 of the source:
`sorted(list(enumerate(similarity[index])), reverse=True, key=lambda x: x[1])`,
the stable descending sort of the enumerated similarity row. -/
def sortedDistances (row : List ℚ) : List (Nat × ℚ) :=
  List.insertionSort descBySim row.enum

/-- The slice `distances[1:6]` of line 79: skip the first ranked entry,
keep the next five. -/
def topPicks (row : List ℚ) : List (Nat × ℚ) :=
  ((sortedDistances row).drop 1).take 5

/-- Out-of-range row access placeholder for `iloc`; every claim that
depends on row content carries the catalog-alignment invariant, under
which all accesses are in range. -/
def defaultEntry : CatalogEntry := ⟨0, ""⟩

/-- Embedding of `recommend` (lines 57-89 of the source).  Returns the
pair of (names, poster URLs) that the Python function returns, together
with the diagnostics emitted during the call (by `recommend` itself and by
the `fetch_poster` calls it makes).  `backend` assigns to each movie id
the outcome of its HTTP request. -/
def recommend (movies : Catalog) (similarity : List (List ℚ))
    (backend : Nat → BackendOutcome) (movie : String) :
    (List String × List String) × List Diag :=
  if movie ∈ titles movies then
    let top := topPicks (queryRow movies similarity movie)
    let fetches := top.map fun p =>
      fetch_poster (movies.getD p.1 defaultEntry).movie_id
        (backend (movies.getD p.1 defaultEntry).movie_id)
    ((top.map fun p => (movies.getD p.1 defaultEntry).title,
      fetches.map Prod.fst),
     (fetches.map Prod.snd).flatten)
  else
    (([], []), [.notFoundError movie])

/-- A sequence of independent `recommend` calls against the same loaded
catalog and similarity matrix: the program keeps no other state between
calls. -/
def session (movies : Catalog) (similarity : List (List ℚ))
    (backend : Nat → BackendOutcome) (queries : List String) :
    List ((List String × List String) × List Diag) :=
  queries.map (recommend movies similarity backend)

/-- A sequence of independent `fetch_poster` calls against a fixed
(deterministic) backend, returning the URL of each call. -/
def posterSession (backend : Nat → BackendOutcome) (ids : List Nat) : List String :=
  ids.map fun movie_id => (fetch_poster movie_id (backend movie_id)).1

/-!
### The stable descending sort, lexicographically

A stable descending sort orders entries by descending score and, among
equal scores, by ascending original position.  For an enumerated row the
original position is the first component, so `sortedDistances row` is
sorted by the lexicographic relation `descLex`.  The lemmas below prove
this by showing that on lists whose first components are already
non-decreasing (such as `row.enum`), sorting by `descBySim` and sorting by
`descLex` coincide.
-/

/-- Descending score, ties broken by ascending original index. -/
def descLex (a b : Nat × ℚ) : Prop := b.2 < a.2 ∨ (a.2 = b.2 ∧ a.1 ≤ b.1)

instance : DecidableRel descLex := fun a b =>
  inferInstanceAs (Decidable (b.2 < a.2 ∨ (a.2 = b.2 ∧ a.1 ≤ b.1)))

instance : IsTotal (Nat × ℚ) descLex := ⟨by
  intro a b
  rcases lt_trichotomy a.2 b.2 with h | h | h
  · exact Or.inr (Or.inl h)
  · rcases le_total a.1 b.1 with h1 | h1
    · exact Or.inl (Or.inr ⟨h, h1⟩)
    · exact Or.inr (Or.inr ⟨h.symm, h1⟩)
  · exact Or.inl (Or.inl h)⟩

instance : IsTrans (Nat × ℚ) descLex := ⟨by
  intro a b c hab hbc
  rcases hab with h1 | ⟨e1, l1⟩
  · rcases hbc with h2 | ⟨e2, l2⟩
    · exact Or.inl (h2.trans h1)
    · exact Or.inl (e2 ▸ h1)
  · rcases hbc with h2 | ⟨e2, l2⟩
    · exact Or.inl (by rw [e1]; exact h2)
    · exact Or.inr ⟨e1.trans e2, l1.trans l2⟩⟩

theorem descBySim_iff_descLex {a b : Nat × ℚ} (h : a.1 ≤ b.1) :
    descBySim a b ↔ descLex a b := by
  unfold descBySim descLex
  constructor
  · intro hle
    rcases lt_or_eq_of_le hle with hlt | heq
    · exact Or.inl hlt
    · exact Or.inr ⟨heq.symm, h⟩
  · intro hlex
    rcases hlex with hlt | ⟨heq, _⟩
    · exact le_of_lt hlt
    · exact le_of_eq heq.symm

theorem orderedInsert_descLex_eq (a : Nat × ℚ) :
    ∀ l : List (Nat × ℚ), (∀ b ∈ l, a.1 ≤ b.1) →
      List.orderedInsert descBySim a l = List.orderedInsert descLex a l
  | [], _ => rfl
  | b :: l, h => by
    have hab : descBySim a b ↔ descLex a b :=
      descBySim_iff_descLex (h b (List.mem_cons_self b l))
    by_cases hd : descBySim a b
    · rw [List.orderedInsert, List.orderedInsert, if_pos hd, if_pos (hab.1 hd)]
    · rw [List.orderedInsert, List.orderedInsert, if_neg hd,
        if_neg (fun hx => hd (hab.2 hx)),
        orderedInsert_descLex_eq a l (fun c hc => h c (List.mem_cons_of_mem b hc))]

theorem insertionSort_descLex_eq :
    ∀ l : List (Nat × ℚ), l.Pairwise (fun a b => a.1 ≤ b.1) →
      List.insertionSort descBySim l = List.insertionSort descLex l
  | [], _ => rfl
  | a :: l, h => by
    rw [List.insertionSort, List.insertionSort,
      insertionSort_descLex_eq l h.of_cons]
    refine orderedInsert_descLex_eq a _ (fun b hb => ?_)
    have hbl : b ∈ l := (List.mem_insertionSort descLex).1 hb
    exact (List.pairwise_cons.1 h).1 b hbl

theorem pairwise_fst_le_enum (row : List ℚ) :
    row.enum.Pairwise fun a b => a.1 ≤ b.1 := by
  have h1 : (row.enum.map Prod.fst).Pairwise (· ≤ ·) := by
    rw [List.enum_map_fst]
    exact (List.pairwise_lt_range row.length).imp le_of_lt
  exact List.pairwise_map.1 h1

/-- `sortedDistances` is sorted lexicographically: descending in score,
and among equal scores ascending in original row index (stability of the
Python sort). -/
theorem sorted_descLex_sortedDistances (row : List ℚ) :
    (sortedDistances row).Pairwise descLex := by
  unfold sortedDistances
  rw [insertionSort_descLex_eq row.enum (pairwise_fst_le_enum row)]
  exact List.sorted_insertionSort descLex row.enum

theorem perm_sortedDistances (row : List ℚ) : List.Perm (sortedDistances row) row.enum :=
  List.perm_insertionSort descBySim row.enum

theorem mem_sortedDistances {row : List ℚ} {p : Nat × ℚ} :
    p ∈ sortedDistances row ↔ p ∈ row.enum :=
  List.mem_insertionSort descBySim

theorem mem_enum_spec {row : List ℚ} {p : Nat × ℚ} (h : p ∈ row.enum) :
    p.1 < row.length ∧ row.getD p.1 0 = p.2 := by
  obtain ⟨hlt, hv⟩ := List.getElem?_eq_some.1 (List.mem_enum_iff_getElem?.1 h)
  exact ⟨hlt, by rw [List.getD_eq_getElem row 0 hlt]; exact hv⟩

theorem nodup_fst_sortedDistances (row : List ℚ) :
    ((sortedDistances row).map Prod.fst).Nodup := by
  have hp : List.Perm ((sortedDistances row).map Prod.fst) (row.enum.map Prod.fst) :=
    (perm_sortedDistances row).map Prod.fst
  rw [hp.nodup_iff, List.enum_map_fst]
  exact List.nodup_range row.length

theorem length_sortedDistances (row : List ℚ) :
    (sortedDistances row).length = row.length := by
  unfold sortedDistances
  rw [List.length_insertionSort, List.enum_length]

theorem topPicks_sublist (row : List ℚ) :
    List.Sublist (topPicks row) (sortedDistances row) :=
  (List.take_sublist 5 _).trans (List.drop_sublist 1 _)

theorem length_topPicks (row : List ℚ) :
    (topPicks row).length = min 5 (row.length - 1) := by
  unfold topPicks
  rw [List.length_take, List.length_drop, length_sortedDistances]

theorem mem_topPicks_spec {row : List ℚ} {p : Nat × ℚ} (h : p ∈ topPicks row) :
    p.1 < row.length ∧ row.getD p.1 0 = p.2 :=
  mem_enum_spec (mem_sortedDistances.1 ((topPicks_sublist row).subset h))

theorem queryIndex_lt (movies : Catalog) (movie : String) (hmem : movie ∈ titles movies) :
    queryIndex movies movie < movies.length := by
  have h := List.indexOf_lt_length.2 hmem
  simp only [titles, List.length_map] at h
  exact h

theorem queryRow_length (movies : Catalog) (similarity : List (List ℚ)) (movie : String)
    (hmem : movie ∈ titles movies)
    (hsq : similarity.length = movies.length)
    (hrows : ∀ r ∈ similarity, r.length = movies.length) :
    (queryRow movies similarity movie).length = movies.length := by
  have hql : queryIndex movies movie < similarity.length := by
    rw [hsq]
    exact queryIndex_lt movies movie hmem
  have hrow : queryRow movies similarity movie = similarity[queryIndex movies movie] := by
    unfold queryRow
    exact List.getD_eq_getElem similarity [] hql
  rw [hrow]
  exact hrows _ (List.getElem_mem hql)

/-- A value found at two distinct positions occurs at least twice. -/
theorem two_le_count_of_two_getD {l : List String} {a : String} {i j : Nat}
    (hij : i < j) (hjl : j < l.length)
    (hgi : l.getD i "" = a) (hgj : l.getD j "" = a) :
    2 ≤ l.count a := by
  have hil : i < l.length := lt_trans hij hjl
  have hgi2 : l[i] = a := by
    rw [← hgi, List.getD_eq_getElem l "" hil]
  have hcd : l.count a = (l.take i).count a + (l.drop i).count a := by
    conv_lhs => rw [← List.take_append_drop i l]
    exact List.count_append a _ _
  have hdrop : l.drop i = l[i] :: l.drop (i + 1) := List.drop_eq_getElem_cons hil
  have hmem : a ∈ l.drop (i + 1) := by
    have hj2 : (l.drop (i + 1))[j - (i + 1)]? = l[j]? := by
      rw [List.getElem?_drop]
      have he : i + 1 + (j - (i + 1)) = j := by omega
      rw [he]
    have hsome : (l.drop (i + 1))[j - (i + 1)]? = some a := by
      rw [hj2, List.getElem?_eq_getElem hjl, ← hgj, List.getD_eq_getElem l "" hjl]
    obtain ⟨hlt2, hv2⟩ := List.getElem?_eq_some.1 hsome
    exact hv2 ▸ List.getElem_mem hlt2
  have h1 : 0 < (l.drop (i + 1)).count a := List.count_pos_iff.2 hmem
  have h2 : (l.drop i).count a = (l.drop (i + 1)).count a + 1 := by
    rw [hdrop, hgi2, List.count_cons]
    simp
  omega

/-- Under the conditions that make the self-similarity entry the unique
lexicographic maximum — strictly larger score than every earlier row, at
least as large as every row — the query row is the head of the stable
descending sort and occurs nowhere in its tail. -/
theorem head_sortedDistances {row : List ℚ} {i : Nat} (hi : i < row.length)
    (hlt : ∀ j, j < i → row.getD j 0 < row.getD i 0)
    (hle : ∀ j, j < row.length → row.getD j 0 ≤ row.getD i 0) :
    ∃ tl, sortedDistances row = (i, row.getD i 0) :: tl ∧ ∀ p ∈ tl, p.1 ≠ i := by
  have hqmem : (i, row.getD i 0) ∈ sortedDistances row := by
    rw [mem_sortedDistances, List.mem_enum_iff_getElem?]
    rw [List.getD_eq_getElem row 0 hi]
    exact List.getElem?_eq_getElem hi
  cases hs : sortedDistances row with
  | nil =>
    rw [hs] at hqmem
    exact absurd hqmem (List.not_mem_nil _)
  | cons hd tl =>
    rw [hs] at hqmem
    have hsorted := sorted_descLex_sortedDistances row
    rw [hs] at hsorted
    have hrel : ∀ p ∈ tl, descLex hd p := (List.pairwise_cons.1 hsorted).1
    have hhd_mem : hd ∈ row.enum := by
      rw [← mem_sortedDistances, hs]
      exact List.mem_cons_self hd tl
    obtain ⟨hhd_lt, hhd_val⟩ := mem_enum_spec hhd_mem
    have hfst : hd.1 = i := by
      by_contra hne
      have hqtl : (i, row.getD i 0) ∈ tl := by
        rcases List.mem_cons.1 hqmem with heq | h
        · exact absurd (congrArg Prod.fst heq.symm) hne
        · exact h
      have hlex := hrel _ hqtl
      rcases Nat.lt_or_ge hd.1 i with hdi | hdi
      · have hstrict := hlt hd.1 hdi
        rcases hlex with hlt2 | ⟨heq2, _⟩
        · rw [← hhd_val] at hlt2
          exact absurd hstrict (lt_asymm hlt2)
        · rw [← hhd_val] at heq2
          rw [heq2] at hstrict
          exact lt_irrefl _ hstrict
      · have hdi2 : i < hd.1 := lt_of_le_of_ne hdi (fun h => hne h.symm)
        rcases hlex with hlt2 | ⟨_, hle2⟩
        · rw [← hhd_val] at hlt2
          exact absurd (lt_of_lt_of_le hlt2 (hle hd.1 hhd_lt)) (lt_irrefl _)
        · omega
    have hhd : hd = (i, row.getD i 0) := by
      rw [Prod.ext_iff]
      refine ⟨hfst, ?_⟩
      rw [← hhd_val, hfst]
    have hnd := nodup_fst_sortedDistances row
    rw [hs, List.map_cons] at hnd
    have hnotin : hd.1 ∉ tl.map Prod.fst := (List.nodup_cons.1 hnd).1
    refine ⟨tl, by rw [hhd], ?_⟩
    intro p hp hpi
    apply hnotin
    rw [hfst, ← hpi]
    exact List.mem_map_of_mem Prod.fst hp

/-!
### Concrete fixtures

A three-entry catalog with a well-formed (square, symmetric,
catalog-aligned) similarity matrix, used to instantiate the claims on
explicit inputs, and a second matrix `simTie` in which row 0 ties the
self-similarity score of row 1.
-/

/-- Three catalog entries with pairwise distinct titles. -/
def movies3 : Catalog := [⟨11, "A"⟩, ⟨12, "B"⟩, ⟨13, "C"⟩]

/-- Well-formed similarity matrix whose row 0 is `[1.0, 0.9, 0.2]`. -/
def sim3 : List (List ℚ) :=
  [[1, mkRat 9 10, mkRat 1 5],
   [mkRat 9 10, 1, mkRat 1 2],
   [mkRat 1 5, mkRat 1 2, 1]]

/-- Well-formed similarity matrix in which row 0 ties the self-similarity
score of the row-1 entry. -/
def simTie : List (List ℚ) := [[1, 1, 0], [1, 1, 0], [0, 0, 1]]

/-- A deterministic backend: every request succeeds with a null
`poster_path`. -/
def bk : Nat → BackendOutcome := fun _ => .ok none

/-!
### Claims about `fetch_poster`
-/

/-- **C7.** For every movie id, when the backend responds successfully but
`poster_path` is null or absent, `fetch_poster` emits the no-poster
diagnostic and returns the fixed no-poster placeholder URL. -/
theorem fetch_poster_no_poster (movie_id : Nat) :
    fetch_poster movie_id (.ok none) = (noPosterURL, [Diag.noPosterWarning movie_id]) :=
  rfl

/-- **C6.** For every movie id, when the backend responds successfully
with a non-empty (truthy) `poster_path` `p`, `fetch_poster` returns
exactly the CDN base concatenated with `p`, with no diagnostic. -/
theorem fetch_poster_success_url (movie_id : Nat) (p : String) (hp : p ≠ "") :
    fetch_poster movie_id (.ok (some p)) = (posterBase ++ p, []) := by
  simp [fetch_poster, hp]

theorem fetch_poster_success_url_witness :
    "abc" ≠ "" ∧ fetch_poster 5 (.ok (some "abc")) = (posterBase ++ "abc", []) :=
  ⟨by decide, fetch_poster_success_url 5 "abc" (by decide)⟩

/-- **C4.** `fetch_poster` is total over its failure model: when the
request exceeds the 10-unit timeout it returns the fixed timeout
placeholder, and for every backend outcome it returns a URL string
(a string of the form `"https://" ++ rest`) to the caller — it never
raises, being a total function of the outcome. -/
theorem fetch_poster_total_and_timeout (movie_id : Nat) (elapsed : Nat)
    (result : BackendOutcome) :
    (10 < elapsed →
      fetch_poster movie_id (outcomeOfRequest elapsed result)
        = (timeoutURL, [Diag.timeoutError movie_id]))
    ∧ ∃ rest : String, (fetch_poster movie_id result).1 = "https://" ++ rest := by
  constructor
  · intro h
    unfold outcomeOfRequest
    rw [if_pos h]
    rfl
  · have hbase : posterBase = "https://" ++ "image.tmdb.org/t/p/w500/" := by decide
    cases result with
    | ok poster_path =>
      cases poster_path with
      | some p =>
        by_cases hp : p = ""
        · exact ⟨"placehold.co/500x750/cccccc/000000?text=No+Poster", by
            simp only [fetch_poster, if_pos hp]
            show noPosterURL = _
            decide⟩
        · refine ⟨"image.tmdb.org/t/p/w500/" ++ p, ?_⟩
          simp only [fetch_poster, if_neg hp]
          rw [hbase, String.append_assoc]
      | none => exact ⟨"placehold.co/500x750/cccccc/000000?text=No+Poster", by
          show noPosterURL = _
          decide⟩
    | timeout => exact ⟨"placehold.co/500x750/ff0000/ffffff?text=Timeout+Error", by
        show timeoutURL = _
        decide⟩
    | connectionFailure e =>
      exact ⟨"placehold.co/500x750/ff0000/ffffff?text=Connection+Error", by
        show connectionErrorURL = _
        decide⟩
    | requestFailure e =>
      exact ⟨"placehold.co/500x750/ff0000/ffffff?text=API+Error", by
        show apiErrorURL = _
        decide⟩
    | unexpectedFailure e =>
      exact ⟨"placehold.co/500x750/ff0000/ffffff?text=Unknown+Error", by
        show unknownErrorURL = _
        decide⟩

theorem fetch_poster_total_and_timeout_witness :
    10 < 11 ∧ fetch_poster 7 (outcomeOfRequest 11 (.ok (some "x")))
      = (timeoutURL, [Diag.timeoutError 7]) :=
  ⟨by decide, (fetch_poster_total_and_timeout 7 11 (.ok (some "x"))).1 (by decide)⟩

/-- **C8.** `fetch_poster` is deterministic: two calls with the same id
against the same deterministic backend yield identical output strings. -/
theorem fetch_poster_deterministic (backend : Nat → BackendOutcome) (movie_id : Nat) :
    ∃ u : String, posterSession backend [movie_id, movie_id] = [u, u] :=
  ⟨(fetch_poster movie_id (backend movie_id)).1, rfl⟩

/-- **C3** (amended).  Each call to `fetch_poster` takes exactly one of
six mutually exclusive outcome categories (the constructors of
`BackendOutcome`, with the successful response split by truthiness of
`poster_path`), and each category is mapped to one output class: either
the real poster URL, or one of exactly five pairwise distinct placeholder
URLs. -/
theorem fetch_poster_output_classes :
    placeholderURLs.Nodup ∧ placeholderURLs.length = 5
    ∧ (∀ (movie_id : Nat) (p : String),
        fetch_poster movie_id (.ok (some p))
          = if p = "" then (noPosterURL, [Diag.noPosterWarning movie_id])
            else (posterBase ++ p, []))
    ∧ (∀ movie_id : Nat,
        fetch_poster movie_id (.ok none) = (noPosterURL, [Diag.noPosterWarning movie_id]))
    ∧ (∀ movie_id : Nat,
        fetch_poster movie_id .timeout = (timeoutURL, [Diag.timeoutError movie_id]))
    ∧ (∀ (movie_id : Nat) (e : String),
        fetch_poster movie_id (.connectionFailure e)
          = (connectionErrorURL, [Diag.connectionError movie_id e]))
    ∧ (∀ (movie_id : Nat) (e : String),
        fetch_poster movie_id (.requestFailure e)
          = (apiErrorURL, [Diag.apiError movie_id e]))
    ∧ (∀ (movie_id : Nat) (e : String),
        fetch_poster movie_id (.unexpectedFailure e)
          = (unknownErrorURL, [Diag.unknownError movie_id e])) :=
  ⟨by decide, rfl, fun _ _ => rfl, fun _ => rfl, fun _ => rfl,
   fun _ _ => rfl, fun _ _ => rfl, fun _ _ => rfl⟩

/-- **C3** (counterexample to the claim as stated).  The claim counts
five outcome categories mapped to a real URL or one of exactly four
distinguishable placeholder URLs; but the five non-real-URL branches of
`fetch_poster` produce five pairwise distinct placeholder URLs at these
concrete inputs, so there are exactly five, not four. -/
theorem fetch_poster_four_placeholders_refuted :
    [(fetch_poster 1 (.ok none)).1, (fetch_poster 1 .timeout).1,
     (fetch_poster 1 (.connectionFailure "down")).1,
     (fetch_poster 1 (.requestFailure "status 404")).1,
     (fetch_poster 1 (.unexpectedFailure "boom")).1].Nodup
    ∧ [(fetch_poster 1 (.ok none)).1, (fetch_poster 1 .timeout).1,
       (fetch_poster 1 (.connectionFailure "down")).1,
       (fetch_poster 1 (.requestFailure "status 404")).1,
       (fetch_poster 1 (.unexpectedFailure "boom")).1].length = 5
    ∧ ∀ u ∈ [(fetch_poster 1 (.ok none)).1, (fetch_poster 1 .timeout).1,
       (fetch_poster 1 (.connectionFailure "down")).1,
       (fetch_poster 1 (.requestFailure "status 404")).1,
       (fetch_poster 1 (.unexpectedFailure "boom")).1], u ∈ placeholderURLs := by
  decide

/-!
### Claims about `recommend`
-/

/-- **C5.** For every title not present in the catalog, `recommend`
returns two empty sequences and emits the not-found diagnostic; the
outcome is not fatal, and since the only cross-call state is the
read-only catalog and matrix, subsequent calls in a session behave
exactly as they would without the failed call. -/
theorem recommend_not_found (movies : Catalog) (similarity : List (List ℚ))
    (backend : Nat → BackendOutcome) (movie : String)
    (habs : movie ∉ titles movies) :
    recommend movies similarity backend movie = (([], []), [Diag.notFoundError movie])
    ∧ ∀ rest : List String,
        session movies similarity backend (movie :: rest)
          = (([], []), [Diag.notFoundError movie]) :: session movies similarity backend rest := by
  have h : recommend movies similarity backend movie
      = (([], []), [Diag.notFoundError movie]) := by
    unfold recommend
    rw [if_neg habs]
  exact ⟨h, fun rest => by unfold session; rw [List.map_cons, h]⟩

theorem recommend_not_found_witness :
    "Z" ∉ titles movies3
    ∧ recommend movies3 sim3 bk "Z" = (([], []), [Diag.notFoundError "Z"])
    ∧ session movies3 sim3 bk ["Z", "A"]
        = (([], []), [Diag.notFoundError "Z"]) :: session movies3 sim3 bk ["A"] :=
  ⟨by decide, (recommend_not_found movies3 sim3 bk "Z" (by decide)).1,
   (recommend_not_found movies3 sim3 bk "Z" (by decide)).2 ["A"]⟩

/-- **C2.** For every title present in the catalog, the returned names
are the titles of the selected ranked entries, whose score components are
sorted in descending order and are the query-row scores of the
corresponding row indices; in particular, for the three-entry catalog
whose similarity row 0 is `[1.0, 0.9, 0.2]`, recommending the row-0 title
returns exactly the titles of rows 1 and 2, in that order. -/
theorem recommend_sorted_descending (movies : Catalog) (similarity : List (List ℚ))
    (backend : Nat → BackendOutcome) (movie : String)
    (hmem : movie ∈ titles movies) :
    ((recommend movies similarity backend movie).1.1
        = (topPicks (queryRow movies similarity movie)).map
            (fun p => (movies.getD p.1 defaultEntry).title))
    ∧ ((topPicks (queryRow movies similarity movie)).map Prod.snd).Pairwise
        (fun a b => b ≤ a)
    ∧ (∀ p ∈ topPicks (queryRow movies similarity movie),
        (queryRow movies similarity movie).getD p.1 0 = p.2)
    ∧ (recommend movies3 sim3 bk "A").1.1 = ["B", "C"] := by
  refine ⟨?_, ?_, fun p hp => (mem_topPicks_spec hp).2, by decide⟩
  · simp only [recommend, if_pos hmem]
  · have hs : (sortedDistances (queryRow movies similarity movie)).Pairwise descBySim :=
      List.sorted_insertionSort descBySim _
    have hp : (topPicks (queryRow movies similarity movie)).Pairwise descBySim :=
      hs.sublist (topPicks_sublist _)
    exact List.pairwise_map.2 hp

theorem recommend_sorted_descending_witness :
    "A" ∈ titles movies3
    ∧ ((topPicks (queryRow movies3 sim3 "A")).map Prod.snd).Pairwise (fun a b => b ≤ a)
    ∧ (recommend movies3 sim3 bk "A").1.1 = ["B", "C"] :=
  ⟨by decide, (recommend_sorted_descending movies3 sim3 bk "A" (by decide)).2.1,
   (recommend_sorted_descending movies3 sim3 bk "A" (by decide)).2.2.2⟩

/-- **C9.** The sort is stable under `reverse=True`: in the sorted
distances of any row, entries with equal similarity scores appear in
ascending original row-index order; consequently, at the concrete matrix
`simTie` — where row index 0 ties the self-similarity score of the row-1
query — the query title (occurring exactly once in the catalog) appears
among its own recommendations. -/
theorem sort_stable_ties_ascending :
    (∀ row : List ℚ,
      (sortedDistances row).Pairwise fun a b => a.2 = b.2 → a.1 < b.1)
    ∧ (titles movies3).count "B" = 1
    ∧ "B" ∈ (recommend movies3 simTie bk "B").1.1 := by
  refine ⟨fun row => ?_, by decide, by decide⟩
  have h1 := sorted_descLex_sortedDistances row
  have h2 : (sortedDistances row).Pairwise fun a b => a.1 ≠ b.1 :=
    List.pairwise_map.1 (nodup_fst_sortedDistances row)
  refine (h1.and h2).imp ?_
  intro a b hab heq
  obtain ⟨hlex, hne⟩ := hab
  rcases hlex with hlt | ⟨_, hle⟩
  · rw [heq] at hlt
    exact absurd hlt (lt_irrefl _)
  · exact lt_of_le_of_ne hle hne

/-- **C10.** For every input title, the two sequences returned by
`recommend` have equal length, and for each position `k` the `k`-th
poster URL is the result of `fetch_poster` applied to the catalog id of
the row whose title is the `k`-th name. -/
theorem recommend_names_posters_aligned (movies : Catalog) (similarity : List (List ℚ))
    (backend : Nat → BackendOutcome) (movie : String)
    (hsq : similarity.length = movies.length)
    (hrows : ∀ r ∈ similarity, r.length = movies.length) :
    ((recommend movies similarity backend movie).1.1.length
        = (recommend movies similarity backend movie).1.2.length)
    ∧ ∀ k, k < (recommend movies similarity backend movie).1.1.length →
        ∃ j, j < movies.length
          ∧ (recommend movies similarity backend movie).1.1.getD k ""
              = (movies.getD j defaultEntry).title
          ∧ (recommend movies similarity backend movie).1.2.getD k ""
              = (fetch_poster (movies.getD j defaultEntry).movie_id
                  (backend (movies.getD j defaultEntry).movie_id)).1 := by
  by_cases hmem : movie ∈ titles movies
  · have hnames : (recommend movies similarity backend movie).1.1
        = (topPicks (queryRow movies similarity movie)).map
            (fun p => (movies.getD p.1 defaultEntry).title) := by
      simp only [recommend, if_pos hmem]
    have hposters : (recommend movies similarity backend movie).1.2
        = (topPicks (queryRow movies similarity movie)).map
            (fun p => (fetch_poster (movies.getD p.1 defaultEntry).movie_id
              (backend (movies.getD p.1 defaultEntry).movie_id)).1) := by
      simp only [recommend, if_pos hmem, List.map_map]
      rfl
    have hrlen : (queryRow movies similarity movie).length = movies.length :=
      queryRow_length movies similarity movie hmem hsq hrows
    constructor
    · rw [hnames, hposters, List.length_map, List.length_map]
    · intro k hk
      rw [hnames, List.length_map] at hk
      refine ⟨(topPicks (queryRow movies similarity movie))[k].1, ?_, ?_, ?_⟩
      · have h1 := (mem_topPicks_spec (List.getElem_mem hk)).1
        omega
      · rw [hnames, List.getD_eq_getElem _ "" (by rw [List.length_map]; exact hk),
          List.getElem_map]
      · rw [hposters, List.getD_eq_getElem _ "" (by rw [List.length_map]; exact hk),
          List.getElem_map]
  · constructor
    · simp only [recommend, if_neg hmem]
    · intro k hk
      simp only [recommend, if_neg hmem, List.length_nil] at hk
      exact absurd hk (Nat.not_lt_zero k)

theorem recommend_names_posters_aligned_witness :
    (sim3.length = movies3.length ∧ ∀ r ∈ sim3, r.length = movies3.length)
    ∧ (recommend movies3 sim3 bk "A").1.1.length
        = (recommend movies3 sim3 bk "A").1.2.length :=
  ⟨by decide, (recommend_names_posters_aligned movies3 sim3 bk "A" (by decide) (by decide)).1⟩

/-- **C1** (counterexample to the claim as stated).  For the well-formed
matrix `simTie`, the title `"B"` occurs exactly once in the catalog, yet
recommending it returns its own title among the names: the row-0 entry
ties the query entry's self-similarity score, the stable sort keeps the
tied row 0 first, and the query entry survives the `[1:6]` slice. -/
theorem recommend_returns_query_title_counterexample :
    (titles movies3).count "B" = 1
    ∧ simTie.length = movies3.length
    ∧ (∀ r ∈ simTie, r.length = movies3.length)
    ∧ (recommend movies3 simTie bk "B").1.1.length
        = (if movies3.length ≤ 6 then movies3.length - 1 else 5)
    ∧ "B" ∈ (recommend movies3 simTie bk "B").1.1 := by
  decide

/-- **C1** (amended).  For every catalog and catalog-aligned similarity
matrix (the data-model invariant: square, row count equal to catalog
size) and every title occurring exactly once in the catalog, `recommend`
returns exactly 5 names (or n-1 names when the catalog has n ≤ 6
entries); and provided the query row's self-similarity score is strictly
greater than the score of every earlier row and at least the score of
every row — the unchecked assumption the spec itself flags — the returned
names never include the query title itself. -/
theorem recommend_count_and_no_self (movies : Catalog) (similarity : List (List ℚ))
    (backend : Nat → BackendOutcome) (movie : String)
    (hmem : movie ∈ titles movies)
    (hsq : similarity.length = movies.length)
    (hrows : ∀ r ∈ similarity, r.length = movies.length)
    (honce : (titles movies).count movie = 1) :
    ((recommend movies similarity backend movie).1.1.length
        = if movies.length ≤ 6 then movies.length - 1 else 5)
    ∧ ((∀ j, j < queryIndex movies movie →
          (queryRow movies similarity movie).getD j 0
            < (queryRow movies similarity movie).getD (queryIndex movies movie) 0) →
       (∀ j, j < movies.length →
          (queryRow movies similarity movie).getD j 0
            ≤ (queryRow movies similarity movie).getD (queryIndex movies movie) 0) →
       movie ∉ (recommend movies similarity backend movie).1.1) := by
  have hq : queryIndex movies movie < movies.length := queryIndex_lt movies movie hmem
  have hrlen : (queryRow movies similarity movie).length = movies.length :=
    queryRow_length movies similarity movie hmem hsq hrows
  have hnames : (recommend movies similarity backend movie).1.1
      = (topPicks (queryRow movies similarity movie)).map
          (fun p => (movies.getD p.1 defaultEntry).title) := by
    simp only [recommend, if_pos hmem]
  constructor
  · rw [hnames, List.length_map, length_topPicks, hrlen]
    rcases le_or_lt movies.length 6 with h6 | h6
    · rw [if_pos h6]
      omega
    · rw [if_neg (by omega)]
      omega
  · intro hlt hle
    obtain ⟨tl, hs, htl⟩ :=
      head_sortedDistances (i := queryIndex movies movie) (by omega) hlt
        (by rw [hrlen]; exact hle)
    have htp : topPicks (queryRow movies similarity movie) = tl.take 5 := by
      unfold topPicks
      rw [hs]
      rfl
    rw [hnames, htp]
    intro hcontra
    obtain ⟨p, hp, hpt⟩ := List.mem_map.1 hcontra
    have hptl : p ∈ tl := (List.take_sublist 5 tl).subset hp
    have hpne : p.1 ≠ queryIndex movies movie := htl p hptl
    have hpenum : p ∈ (queryRow movies similarity movie).enum := by
      rw [← mem_sortedDistances, hs]
      exact List.mem_cons_of_mem _ hptl
    have hplt : p.1 < movies.length := by
      have := (mem_enum_spec hpenum).1
      omega
    have hql : queryIndex movies movie < (titles movies).length := by
      simp only [titles, List.length_map]
      exact hq
    have hpl : p.1 < (titles movies).length := by
      simp only [titles, List.length_map]
      exact hplt
    have htq : (titles movies).getD (queryIndex movies movie) "" = movie := by
      rw [List.getD_eq_getElem _ "" hql]
      exact List.getElem_indexOf hql
    have htp1 : (titles movies).getD p.1 "" = movie := by
      rw [List.getD_eq_getElem _ "" hpl]
      rw [← hpt]
      simp only [titles, List.getElem_map]
      rw [List.getD_eq_getElem movies defaultEntry hplt]
    rcases Nat.lt_or_ge p.1 (queryIndex movies movie) with hc | hc
    · have h2 := two_le_count_of_two_getD hc hql htp1 htq
      omega
    · have hc2 : queryIndex movies movie < p.1 :=
        lt_of_le_of_ne hc (fun h => hpne h.symm)
      have h2 := two_le_count_of_two_getD hc2 hpl htq htp1
      omega

theorem recommend_count_and_no_self_witness :
    ("A" ∈ titles movies3 ∧ (titles movies3).count "A" = 1
      ∧ sim3.length = movies3.length ∧ ∀ r ∈ sim3, r.length = movies3.length)
    ∧ (recommend movies3 sim3 bk "A").1.1.length
        = (if movies3.length ≤ 6 then movies3.length - 1 else 5)
    ∧ "A" ∉ (recommend movies3 sim3 bk "A").1.1 := by
  refine ⟨by decide, ?_, ?_⟩
  · exact (recommend_count_and_no_self movies3 sim3 bk "A" (by decide) (by decide)
      (by decide) (by decide)).1
  · exact (recommend_count_and_no_self movies3 sim3 bk "A" (by decide) (by decide)
      (by decide) (by decide)).2 (by decide) (by decide)

end MovieRec
